import Mathlib

/-!
# VisionDataComm — verification of the capture/analysis/dataset core

Shallow embedding of the TypeScript sources:
* `src/App.tsx` — shared dataset store and goal auto-increment (`handleNewCapture`);
* `src/unnamed/part_000` (FieldView) — capture session: analyze, auto-augment,
  save, and the AR-guidance scan loop;
* `src/services/geminiService.ts` — `analyzeFieldImage` fallback and the
  `generateInspectionVideo` polling loop;
* `src/components/DataView.tsx` — dataset aggregates;
* `src/components/ChatPanel.tsx` — chat send handler.

Machine integers are modelled as `Nat`; JavaScript promises are modelled by
splitting an async handler at its suspension points into explicit start /
completion steps, or by passing the environment's responses (`Except` values)
as explicit arguments.
-/

namespace VisionDataComm

/-! ## Data model

Modelled from the spec: the repository's `types` module is not among the
provided sources; field names and shapes are taken from §3 of the spec and
from every use site in the provided components. -/

/-- Status field of `CapturedItem`: the spec's `status ∈ {pending, approved}`. -/
inductive ItemStatus
  | pending
  | approved
deriving DecidableEq, Repr

/-- Analysis result as produced by `analyzeFieldImage`'s response schema.
`severity` is a string drawn from `{Low, Medium, High, Critical}`;
`missingAngles` is optional in the TS type. -/
structure AnalysisResult where
  defectType : String
  severity : String
  confidence : Nat
  instructions : String
  isQualitySufficient : Bool
  missingAngles : Option (List String)
deriving DecidableEq, Repr

/-- The `metadata` object attached by `handleSave`. -/
structure ItemMetadata where
  machineId : String
  component : String
  location : String
deriving DecidableEq, Repr

/-- Captured item: the unit committed to the dataset store.
`analysis` is optional in the TS type (`analysis?`). -/
structure CapturedItem where
  id : String
  timestamp : Nat
  imageUrl : String
  annotatedImageUrl : Option String
  analysis : Option AnalysisResult
  status : ItemStatus
  metadata : ItemMetadata
deriving DecidableEq, Repr

/-- Project goal record as held in `App.tsx`'s goal state. -/
structure ProjectGoal where
  id : String
  title : String
  targetCount : Nat
  currentCount : Nat
  deadline : String
  status : String
  description : String
deriving DecidableEq, Repr

/-! ## Strings: JavaScript `includes` and `toLowerCase`

`String.prototype.includes(pat)` is substring containment; modelled over
character lists. -/

/-- Test `startsWithChars s pat`: `pat` is an initial segment of `s`. -/
def startsWithChars : List Char → List Char → Bool
  | _, [] => true
  | [], _ :: _ => false
  | a :: as, b :: bs => a == b && startsWithChars as bs

/-- Test `containsChars s pat`: `pat` occurs contiguously inside `s`
(JS `s.includes(pat)`). -/
def containsChars : List Char → List Char → Bool
  | [], pat => pat.isEmpty
  | c :: rest, pat => startsWithChars (c :: rest) pat || containsChars rest pat

/-- JS `s.includes(pat)` (case-sensitive). -/
def strIncludes (s pat : String) : Bool :=
  containsChars s.toList pat.toList

/-- JS `s.toLowerCase().includes(pat)` for the ASCII strings this program
uses. -/
def strIncludesLower (s pat : String) : Bool :=
  containsChars (s.toList.map Char.toLower) pat.toList

/-! ## App.tsx — dataset store and goal auto-increment

`handleNewCapture` (src/App.tsx, lines 45–53):

```ts
const handleNewCapture = (item: CapturedItem) => {
  setCapturedItems(prev => [...prev, item]);
  if (item.analysis?.defectType.toLowerCase().includes('rust')) {
      setGoals(prev => prev.map(g => g.id === 'g2' ? {...g, currentCount: g.currentCount + 1} : g));
  } else {
      setGoals(prev => prev.map(g => g.id === 'g1' ? {...g, currentCount: g.currentCount + 1} : g));
  }
};
```
-/

/-- The classification test `item.analysis?.defectType.toLowerCase().includes('rust')`:
optional chaining yields `undefined` (falsy) when `analysis` is absent. -/
def isRustCapture (item : CapturedItem) : Bool :=
  match item.analysis with
  | some a => strIncludesLower a.defectType "rust"
  | none => false

/-- Spread update `\x7b...g, currentCount: g.currentCount + 1\x7d`. -/
def incGoalCount (g : ProjectGoal) : ProjectGoal :=
  { g with currentCount := g.currentCount + 1 }

/-- Map update `prev.map(g => g.id === gid ? incremented : g)`. -/
def incrementGoalWithId (gid : String) (gs : List ProjectGoal) : List ProjectGoal :=
  gs.map fun g => if g.id = gid then incGoalCount g else g

/-- The goal-state update performed by `handleNewCapture`. -/
def handleNewCaptureGoals (item : CapturedItem) (gs : List ProjectGoal) : List ProjectGoal :=
  if isRustCapture item then incrementGoalWithId "g2" gs
  else incrementGoalWithId "g1" gs

/-- The item-state update performed by `handleNewCapture`: `[...prev, item]`. -/
def handleNewCaptureItems (item : CapturedItem) (items : List CapturedItem) :
    List CapturedItem :=
  items ++ [item]

/-- The initial goal store of `App.tsx`. -/
def initialGoals : List ProjectGoal :=
  [{ id := "g1", title := "Belt Wear Analysis", targetCount := 50, currentCount := 12,
     deadline := "2025-04-10", status := "active",
     description := "Collect diversified samples of belt fraying at >30% wear." },
   { id := "g2", title := "Motor Mounting Rust", targetCount := 20, currentCount := 18,
     deadline := "2025-04-05", status := "at-risk",
     description := "High priority: Identifying corrosion on Unit A-4 mounts." }]

/-! ## geminiService.ts — `analyzeFieldImage` fallback

The whole call (network request and JSON parse) sits inside one `try`; any
error is caught and a fixed fallback `AnalysisResult` is returned, so the
function never raises to its caller. The environment's response is passed as
an `Except` argument: `Except.ok r` when the call and parse produce `r`,
`Except.error e` when anything throws. -/

/-- The fallback result returned by `analyzeFieldImage`'s `catch` branch. -/
def fallbackAnalysis : AnalysisResult :=
  { defectType := "Unknown", severity := "Low", confidence := 0,
    instructions := "Analysis service unavailable. Please retry.",
    isQualitySufficient := false, missingAngles := none }

/-- Function `analyzeFieldImage`: the parsed response on success, `fallbackAnalysis`
on any error. The return type `AnalysisResult` (not `Except`) reflects that
the TS function never rethrows. -/
def analyzeFieldImage (resp : Except String AnalysisResult) : AnalysisResult :=
  match resp with
  | Except.ok r => r
  | Except.error _ => fallbackAnalysis

/-! ## FieldView — `handleAnalyze` and the auto-augmentation rule

`handleAnalyze` (src/unnamed/part_000, lines 91–114) awaits
`analyzeFieldImage`, stores the result, then — only if
`result.defectType !== 'None' && result.isQualitySufficient` — calls
`handleAugment(base64, result.defectType)`, which issues one
`generateAugmentedOverlay(base64, `defect: ${defect}`)` request. The
observable behaviour of one `handleAnalyze` run is modelled as a trace of
events in program order. -/

/-- Events observable during one `handleAnalyze` run. -/
inductive CaptureEvent
  | analyzed (r : AnalysisResult)
  | augmentRequested (base64 : String) (prompt : String)
deriving DecidableEq, Repr

/-- True exactly on augmentation requests. -/
def isAugmentRequest : CaptureEvent → Bool
  | CaptureEvent.augmentRequested _ _ => true
  | _ => false

/-- The event trace of one `handleAnalyze` run, given the analysis result the
inference client produced (after `analyzeFieldImage`'s fallback handling). -/
def handleAnalyzeTrace (base64 : String) (result : AnalysisResult) : List CaptureEvent :=
  [CaptureEvent.analyzed result] ++
    (if result.defectType ≠ "None" ∧ result.isQualitySufficient = true then
      [CaptureEvent.augmentRequested base64 ("defect: " ++ result.defectType)]
    else [])

/-! ## FieldView — `handleSave`

```ts
const handleSave = () => {
  if (capturedImage && analysis) {
    let component = 'Fuselage';
    if (machineContext.includes('Wing')) component = 'Wing';
    if (machineContext.includes('Engine')) component = 'Engine';
    if (machineContext.includes('Tail')) component = 'Tail';
    const newItem: CapturedItem = { ..., status: analysis.isQualitySufficient ? 'approved' : 'pending', ... };
    onCapture(newItem);
    handleReset();
  }
};
```

When the guard fails the function body is skipped entirely: nothing is
committed and nothing is thrown. The outcome vocabulary below includes a
`raisedError` constructor so that the spec's "rejected as an error"
expectation is expressible; the embedded handler never produces it, matching
the absence of any `throw` in the source. -/

/-- Possible outcomes of a `handleSave` call. -/
inductive SaveOutcome
  | committed (item : CapturedItem)
  | silentNoop
  | raisedError (msg : String)
deriving DecidableEq, Repr

/-- True exactly on `committed` outcomes. -/
def isCommitted : SaveOutcome → Bool
  | SaveOutcome.committed _ => true
  | _ => false

/-- True exactly on `raisedError` outcomes. -/
def isRaisedError : SaveOutcome → Bool
  | SaveOutcome.raisedError _ => true
  | _ => false

/-- The `component` selection of `handleSave`. -/
def componentFor (machineContext : String) : String :=
  let c := "Fuselage"
  let c := if strIncludes machineContext "Wing" then "Wing" else c
  let c := if strIncludes machineContext "Engine" then "Engine" else c
  if strIncludes machineContext "Tail" then "Tail" else c

/-- JS `annotatedImage || undefined`: `null` and the empty string are falsy. -/
def annotatedOrUndefined : Option String → Option String
  | some s => if s = "" then none else some s
  | none => none

/-- Handler `handleSave`, with the session state as arguments (`crypto.randomUUID()`
and `Date.now()` passed in as `newId` and `now`). -/
def handleSave (newId : String) (now : Nat) (capturedImage : Option String)
    (annotatedImage : Option String) (analysis : Option AnalysisResult)
    (machineContext : String) : SaveOutcome :=
  match capturedImage, analysis with
  | some img, some a =>
      SaveOutcome.committed
        { id := newId, timestamp := now, imageUrl := img,
          annotatedImageUrl := annotatedOrUndefined annotatedImage,
          analysis := some a,
          status := if a.isQualitySufficient then ItemStatus.approved else ItemStatus.pending,
          metadata := { machineId := "B787-X", component := componentFor machineContext,
                        location := "Hangar 1" } }
  | _, _ => SaveOutcome.silentNoop

/-! ## DataView.tsx — dataset aggregates

```ts
const defectCounts = items.reduce((acc, item) => {
  const type = item.analysis?.defectType || 'Unknown';
  acc[type] = (acc[type] || 0) + 1;
  return acc;
}, {});
const pendingCount = items.filter(i => i.status === 'pending').length;
const qualityPercentage = items.length > 0
  ? Math.round((items.filter(i => i.analysis?.isQualitySufficient).length / items.length) * 100)
  : 0;
```

The histogram record is modelled as the function from a defect-type key to
its count. `Math.round((q/total)*100)` is modelled in exact rational
arithmetic as `⌊100q/total + 1/2⌋`. -/

/-- Histogram key: `item.analysis?.defectType || 'Unknown'` — absence of an
analysis, and an empty `defectType` string (falsy in JS), both map to
`"Unknown"`. -/
def defectKey (item : CapturedItem) : String :=
  match item.analysis with
  | some a => if a.defectType = "" then "Unknown" else a.defectType
  | none => "Unknown"

/-- The per-defect-type histogram, as a function from key to count. -/
def defectCounts (items : List CapturedItem) (t : String) : Nat :=
  (items.filter (fun i => defectKey i == t)).length

/-- Truthiness of `i.analysis?.isQualitySufficient`. -/
def qualityOk (item : CapturedItem) : Bool :=
  match item.analysis with
  | some a => a.isQualitySufficient
  | none => false

/-- Number of committed items: `items.length`. -/
def totalCount (items : List CapturedItem) : Nat := items.length

/-- JS `items.filter(i => i.status === 'pending').length`. -/
def pendingCount (items : List CapturedItem) : Nat :=
  (items.filter (fun i => i.status == ItemStatus.pending)).length

/-- JS `items.filter(i => i.analysis?.isQualitySufficient).length`. -/
def qualityPassCount (items : List CapturedItem) : Nat :=
  (items.filter (fun i => qualityOk i)).length

/-- Number of items with `status === 'approved'` (the spec's phrasing of the
quality-pass numerator). -/
def approvedCount (items : List CapturedItem) : Nat :=
  (items.filter (fun i => i.status == ItemStatus.approved)).length

/-- Exact-arithmetic model of `Math.round((q / total) * 100)`:
`⌊(100q + total/2) / total⌋ = (200q + total) / (2 total)` in `Nat` division. -/
def roundPct (q total : Nat) : Nat := (200 * q + total) / (2 * total)

/-- The quality-pass percentage of `DataView.tsx`. -/
def qualityPercentage (items : List CapturedItem) : Nat :=
  if items.length > 0 then roundPct (qualityPassCount items) items.length else 0

/-! ## geminiService.ts — `generateInspectionVideo` (the long-running job poller)

```ts
let operation = await aiWithKey.models.generateVideos({...});
while (!operation.done) {
  await new Promise(resolve => setTimeout(resolve, 5000)); // 5s interval
  operation = await aiWithKey.operations.getVideosOperation({operation: operation});
}
if (operation.response?.generatedVideos?.[0]?.video?.uri) {
    return `...uri...&key=...`;
}
return null;
// catch (error) { console.error(...); throw error; }
```

The environment is scripted: `submitRes` is the outcome of the initial
`generateVideos` call and `polls` the successive outcomes of
`getVideosOperation`. The run returns `none` when the script runs out before
a handle with `done = true` arrives (the loop would keep polling). -/

/-- A job handle: `done` flag and the optional video URI of the response. -/
structure JobHandle where
  done : Bool
  resultUri : Option String
deriving DecidableEq, Repr

/-- Observable events of one `generateInspectionVideo` run. -/
inductive JobEvent
  | submit
  | sleep (ms : Nat)
  | poll
deriving DecidableEq, Repr

/-- The `while (!operation.done)` loop: each iteration suspends 5000 ms and
re-polls, replacing the handle; a poll error escapes the loop (caught and
rethrown by the surrounding `catch`). -/
def pollLoop (h : JobHandle) (polls : List (Except String JobHandle))
    (tr : List JobEvent) : Option (Except String (Option String) × List JobEvent) :=
  if h.done then some (Except.ok h.resultUri, tr)
  else
    match polls with
    | [] => none
    | Except.error e :: _ =>
        some (Except.error e, tr ++ [JobEvent.sleep 5000, JobEvent.poll])
    | Except.ok h2 :: rest =>
        pollLoop h2 rest (tr ++ [JobEvent.sleep 5000, JobEvent.poll])

/-- One `generateInspectionVideo` run against a scripted environment: submit
once, loop until `done`, then decorate the URI with the API key (or return
`null`); any submit or poll error is rethrown unchanged. -/
def generateInspectionVideo (apiKey : String) (submitRes : Except String JobHandle)
    (polls : List (Except String JobHandle)) :
    Option (Except String (Option String) × List JobEvent) :=
  match submitRes with
  | Except.error e => some (Except.error e, [JobEvent.submit])
  | Except.ok h =>
      match pollLoop h polls [JobEvent.submit] with
      | none => none
      | some (Except.ok uri, tr) =>
          some (Except.ok (uri.map fun u => u ++ "&key=" ++ apiKey), tr)
      | some (Except.error e, tr) => some (Except.error e, tr)

/-! ## FieldView — the AR guidance scan loop

The guidance effect (src/unnamed/part_000, lines 45–74): when activated it
calls `scanFrame()` immediately, then `setInterval(scanFrame, 3000)`; the
`else` branch and the cleanup run `clearInterval`. `scanFrame` is async: it
awaits `getPreCaptureGuidance` and then calls `setGuidanceMessages(msgs)`
(a hint publication) with no guard whatsoever — there is no cancellation
flag, so a scan still in flight when the timer is cleared publishes its
result when it completes.

Modelled as a step machine over the effect's observable actions. -/

/-- Scanner state: whether the interval timer is scheduled, how many scans
are in flight, and counters of scans started and hints published. -/
structure ScannerState where
  timerActive : Bool
  inFlight : Nat
  startedCount : Nat
  publishCount : Nat
deriving DecidableEq, Repr

/-- The scanner's observable actions. `start` is the effect body on
activation (immediate `scanFrame()` plus `setInterval`); `tick` is an
interval firing; `complete` is an in-flight `scanFrame` resolving and calling
`setGuidanceMessages(msgs)`; `stop` is the `clearInterval` teardown. -/
inductive ScannerAction
  | start
  | tick
  | complete
  | stop
deriving DecidableEq, Repr

/-- One step of the guidance effect. `complete` publishes unconditionally —
the source has no stale/cancelled check around `setGuidanceMessages(msgs)`. -/
def scannerStep (s : ScannerState) (a : ScannerAction) : ScannerState :=
  match a with
  | ScannerAction.start =>
      { s with timerActive := true, inFlight := s.inFlight + 1,
               startedCount := s.startedCount + 1 }
  | ScannerAction.tick =>
      if s.timerActive then
        { s with inFlight := s.inFlight + 1, startedCount := s.startedCount + 1 }
      else s
  | ScannerAction.complete =>
      if s.inFlight > 0 then
        { s with inFlight := s.inFlight - 1, publishCount := s.publishCount + 1 }
      else s
  | ScannerAction.stop => { s with timerActive := false }

/-- Fold of `scannerStep` over an action sequence. -/
def scannerRun (s : ScannerState) : List ScannerAction → ScannerState
  | [] => s
  | a :: rest => scannerRun (scannerStep s a) rest

/-- The scanner's initial state. -/
def scannerInit : ScannerState :=
  { timerActive := false, inFlight := 0, startedCount := 0, publishCount := 0 }

/-- Issue time of the k-th scan of an active period starting at `t0`:
`scanFrame()` runs at once, then `setInterval(scanFrame, 3000)` fires at
`t0 + 3000(k+1)`. -/
def scanIssueTime (t0 : Nat) : Nat → Nat
  | 0 => t0
  | k + 1 => t0 + 3000 * (k + 1)

/-! ## ChatPanel.tsx — `handleSend`

```ts
const handleSend = async () => {
  if (!input.trim()) return;
  const userMsg = {...};
  onSendMessage(userMsg);
  setInput('');
  setIsTyping(true);
  const responseText = await sendChatMessage(messages, input);
  const aiMsg = {...};
  onSendMessage(aiMsg);
  setIsTyping(false);
};
```

The only guard is on empty (trimmed) input; nothing checks `isTyping`, so a
second `handleSend` with non-empty input runs while the first await is
pending. The async handler is split at its single await into
`handleSendStart` (synchronous part up to the await; returns the pending
request, whose history payload is the `messages` prop captured before the
user message was appended) and `handleSendComplete` (the continuation). -/

/-- JS `input.trim()`: strip leading and trailing whitespace (modelled over
the character list; `String.trim` itself is avoided because its `Substring`
recursion does not reduce in the kernel). -/
def jsTrim (s : String) : String :=
  String.mk (((s.toList.dropWhile Char.isWhitespace).reverse.dropWhile
    Char.isWhitespace).reverse)

/-- A chat message as appended by `handleSend`. -/
structure ChatMessage where
  id : String
  sender : String
  role : String
  text : String
  timestamp : Nat
deriving DecidableEq, Repr

/-- Chat state visible to `handleSend`: the message log and the
awaiting-reply marker. -/
structure ChatState where
  messages : List ChatMessage
  isTyping : Bool
deriving DecidableEq, Repr

/-- An outstanding inference request: the history snapshot sent as payload
and the user's text. -/
structure PendingSend where
  historySnapshot : List ChatMessage
  text : String
deriving DecidableEq, Repr

/-- Synchronous part of `handleSend`, up to the `await`: `none` is the
empty-input early return; otherwise the user message is appended, `isTyping`
set, and the request (with the pre-append history snapshot, as in
`sendChatMessage(messages, input)`) becomes outstanding. -/
def handleSendStart (newId : String) (now : Nat) (role : String) (st : ChatState)
    (input : String) : ChatState × Option PendingSend :=
  if jsTrim input = "" then (st, none)
  else
    ({ messages := st.messages ++
        [{ id := newId, sender := "user", role := role, text := input, timestamp := now }],
       isTyping := true },
     some { historySnapshot := st.messages, text := input })

/-- Continuation of `handleSend` after the reply arrives: append the AI
message and clear `isTyping`. -/
def handleSendComplete (newId : String) (now : Nat) (st : ChatState)
    (replyText : String) : ChatState :=
  { messages := st.messages ++
      [{ id := newId, sender := "ai", role := "System", text := replyText, timestamp := now }],
    isTyping := false }

/-! ## Sample values used by concrete witnesses -/

/-- The first goal of `initialGoals` (`id = 'g1'`). -/
def beltGoal : ProjectGoal :=
  { id := "g1", title := "Belt Wear Analysis", targetCount := 50, currentCount := 12,
    deadline := "2025-04-10", status := "active",
    description := "Collect diversified samples of belt fraying at >30% wear." }

/-- The second goal of `initialGoals` (`id = 'g2'`). -/
def rustGoal : ProjectGoal :=
  { id := "g2", title := "Motor Mounting Rust", targetCount := 20, currentCount := 18,
    deadline := "2025-04-05", status := "at-risk",
    description := "High priority: Identifying corrosion on Unit A-4 mounts." }

/-- A quality-sufficient rust analysis (`defectType = "Surface Rust"`). -/
def sampleRustAnalysis : AnalysisResult :=
  { defectType := "Surface Rust", severity := "High", confidence := 88,
    instructions := "Capture a closer view of the corroded mount.",
    isQualitySufficient := true, missingAngles := none }

/-- A quality-sufficient crack analysis (`defectType = "Crack"`). -/
def sampleCrackAnalysis : AnalysisResult :=
  { defectType := "Crack", severity := "Medium", confidence := 75,
    instructions := "Capture the full crack length.",
    isQualitySufficient := true, missingAngles := none }

/-- A quality-insufficient analysis. -/
def sampleBlurAnalysis : AnalysisResult :=
  { defectType := "Crack", severity := "Low", confidence := 40,
    instructions := "Hold steady and retake.",
    isQualitySufficient := false, missingAngles := none }

/-- Metadata as attached by `handleSave` with the default machine context. -/
def sampleMetadata : ItemMetadata :=
  { machineId := "B787-X", component := "Fuselage", location := "Hangar 1" }

/-- A committed item carrying `sampleRustAnalysis`. -/
def sampleRustItem : CapturedItem :=
  { id := "item-1", timestamp := 0, imageUrl := "img-1", annotatedImageUrl := none,
    analysis := some sampleRustAnalysis, status := ItemStatus.approved,
    metadata := sampleMetadata }

/-- A committed item carrying `sampleCrackAnalysis`. -/
def sampleCrackItem : CapturedItem :=
  { id := "item-2", timestamp := 1, imageUrl := "img-2", annotatedImageUrl := none,
    analysis := some sampleCrackAnalysis, status := ItemStatus.approved,
    metadata := sampleMetadata }

/-- A pending item carrying `sampleBlurAnalysis`. -/
def sampleBlurItem : CapturedItem :=
  { id := "item-3", timestamp := 2, imageUrl := "img-3", annotatedImageUrl := none,
    analysis := some sampleBlurAnalysis, status := ItemStatus.pending,
    metadata := sampleMetadata }

/-- An item with no analysis at all. -/
def sampleNoAnalysisItem : CapturedItem :=
  { id := "item-4", timestamp := 3, imageUrl := "img-4", annotatedImageUrl := none,
    analysis := none, status := ItemStatus.pending, metadata := sampleMetadata }

/-- A 3-item store in which 2 items pass quality (and are approved). -/
def sampleItems3 : List CapturedItem := [sampleRustItem, sampleCrackItem, sampleBlurItem]

/-- First chat send against an empty log. -/
def chatDemoStart1 : ChatState × Option PendingSend :=
  handleSendStart "u1" 0 "Field Engineer" { messages := [], isTyping := false } "first"

/-- Second chat send, issued while the first reply is still pending. -/
def chatDemoStart2 : ChatState × Option PendingSend :=
  handleSendStart "u2" 1 "Field Engineer" chatDemoStart1.1 "second"

/-- Log after both replies arrive, in submission order. -/
def chatDemoFinal : ChatState :=
  handleSendComplete "a2" 3 (handleSendComplete "a1" 2 chatDemoStart2.1 "r1") "r2"

/-! ## Theorems -/

/-- C1: every commit increments exactly one goal's `currentCount`, by exactly 1:
the rust goal (`id = 'g2'`) when `analysis.defectType` contains `"rust"`
case-insensitively, otherwise the default goal (`id = 'g1'`); all other goals
are unchanged, and goal ids are never altered. -/
theorem commit_increments_exactly_one_goal (item : CapturedItem) (a b : ProjectGoal)
    (ha : a.id = "g1") (hb : b.id = "g2") :
    (handleNewCaptureGoals item [a, b] =
      if isRustCapture item then [a, incGoalCount b] else [incGoalCount a, b])
    ∧ (isRustCapture item = true ↔
        ∃ r, item.analysis = some r ∧ strIncludesLower r.defectType "rust" = true)
    ∧ ∀ gs : List ProjectGoal,
        (handleNewCaptureGoals item gs).map ProjectGoal.id = gs.map ProjectGoal.id := by
  refine ⟨?_, ?_, ?_⟩
  · cases hr : isRustCapture item with
    | true => simp [handleNewCaptureGoals, hr, incrementGoalWithId, ha, hb]
    | false => simp [handleNewCaptureGoals, hr, incrementGoalWithId, ha, hb]
  · cases hA : item.analysis with
    | none => simp [isRustCapture, hA]
    | some r => simp [isRustCapture, hA]
  · intro gs
    cases hr : isRustCapture item with
    | true =>
        simp only [handleNewCaptureGoals, hr, if_true, incrementGoalWithId, List.map_map]
        refine List.map_congr_left fun g _ => ?_
        by_cases hg : g.id = "g2" <;> simp [hg, incGoalCount]
    | false =>
        simp only [handleNewCaptureGoals, hr, Bool.false_eq_true, if_false,
          incrementGoalWithId, List.map_map]
        refine List.map_congr_left fun g _ => ?_
        by_cases hg : g.id = "g1" <;> simp [hg, incGoalCount]

/-- Witness for C1 at a concrete rust-typed item and the app's two goals. -/
theorem commit_increments_exactly_one_goal_witness :
    beltGoal.id = "g1" ∧ rustGoal.id = "g2"
    ∧ (handleNewCaptureGoals sampleRustItem [beltGoal, rustGoal] =
        if isRustCapture sampleRustItem then [beltGoal, incGoalCount rustGoal]
        else [incGoalCount beltGoal, rustGoal])
    ∧ (isRustCapture sampleRustItem = true ↔
        ∃ r, sampleRustItem.analysis = some r ∧ strIncludesLower r.defectType "rust" = true) :=
  ⟨rfl, rfl, (commit_increments_exactly_one_goal sampleRustItem beltGoal rustGoal rfl rfl).1,
   (commit_increments_exactly_one_goal sampleRustItem beltGoal rustGoal rfl rfl).2.1⟩

/-- C10: committing an item with no analysis still increments exactly one goal —
the missing analysis falls into the non-rust bucket, so the default goal
(`id = 'g1'`) gets +1 and the rust goal is unchanged. -/
theorem commit_without_analysis_increments_default (item : CapturedItem)
    (hA : item.analysis = none) (a b : ProjectGoal)
    (ha : a.id = "g1") (hb : b.id = "g2") :
    handleNewCaptureGoals item [a, b] = [incGoalCount a, b]
    ∧ isRustCapture item = false := by
  have hr : isRustCapture item = false := by simp [isRustCapture, hA]
  exact ⟨by simp [handleNewCaptureGoals, hr, incrementGoalWithId, ha, hb], hr⟩

/-- Witness for C10 at a concrete analysis-free item. -/
theorem commit_without_analysis_increments_default_witness :
    sampleNoAnalysisItem.analysis = none
    ∧ handleNewCaptureGoals sampleNoAnalysisItem [beltGoal, rustGoal] =
        [incGoalCount beltGoal, rustGoal] :=
  ⟨rfl, (commit_without_analysis_increments_default sampleNoAnalysisItem rfl
    beltGoal rustGoal rfl rfl).1⟩

/-- C2: every item committed by `handleSave` has `status = approved` iff its
analysis has `isQualitySufficient = true`; hence every committed item with
`status = approved` has a non-null analysis with `isQualitySufficient = true`. -/
theorem saved_item_status_iff_quality (newId : String) (now : Nat)
    (capturedImage annotatedImage : Option String) (analysis : Option AnalysisResult)
    (machineContext : String) (item : CapturedItem)
    (h : handleSave newId now capturedImage annotatedImage analysis machineContext =
      SaveOutcome.committed item) :
    (item.status = ItemStatus.approved ↔
      ∃ a, item.analysis = some a ∧ a.isQualitySufficient = true)
    ∧ (item.status = ItemStatus.approved →
        ∃ a, item.analysis = some a ∧ a.isQualitySufficient = true) := by
  cases capturedImage with
  | none => simp [handleSave] at h
  | some img =>
    cases analysis with
    | none => simp [handleSave] at h
    | some a =>
      simp only [handleSave, SaveOutcome.committed.injEq] at h
      subst h
      cases hq : a.isQualitySufficient <;> simp [hq]

/-- Witness for C2: a concrete quality-sufficient save. -/
theorem saved_item_status_iff_quality_witness :
    ∃ item, handleSave "item-1" 0 (some "img-1") none (some sampleRustAnalysis)
        "Fuselage - Section 4A" = SaveOutcome.committed item
    ∧ (item.status = ItemStatus.approved ↔
        ∃ a, item.analysis = some a ∧ a.isQualitySufficient = true) :=
  ⟨{ id := "item-1", timestamp := 0, imageUrl := "img-1", annotatedImageUrl := none,
     analysis := some sampleRustAnalysis, status := ItemStatus.approved,
     metadata := sampleMetadata },
   rfl,
   (saved_item_status_iff_quality "item-1" 0 (some "img-1") none (some sampleRustAnalysis)
     "Fuselage - Section 4A" _ rfl).1⟩

/-- C8 counterexample: `handleSave` with a captured image but no analysis
produces `silentNoop` — nothing is committed, but no error is raised either;
the claimed rejection-as-error does not happen. -/
theorem save_without_analysis_counterexample :
    handleSave "item-9" 0 (some "img-9") none none "Fuselage - Section 4A" =
      SaveOutcome.silentNoop
    ∧ isRaisedError (handleSave "item-9" 0 (some "img-9") none none
        "Fuselage - Section 4A") = false
    ∧ isCommitted (handleSave "item-9" 0 (some "img-9") none none
        "Fuselage - Section 4A") = false :=
  ⟨rfl, rfl, rfl⟩

/-- C8 amended: calling `handleSave` with no analysis is silently ignored —
no `CapturedItem` is committed and nothing else happens; in particular no
error is raised, so the failure is not observable to the caller. -/
theorem save_without_analysis_silent_noop (newId : String) (now : Nat)
    (capturedImage annotatedImage : Option String) (machineContext : String) :
    handleSave newId now capturedImage annotatedImage none machineContext =
      SaveOutcome.silentNoop := by
  cases capturedImage <;> rfl

/-- C9: when the analyze inference call fails, `analyzeFieldImage` still
returns the fixed fallback result (`defectType = "Unknown"`, `severity = Low`,
`confidence = 0`, `isQualitySufficient = false`, retry-prompting text); its
return type carries no error, so failure never propagates to the caller. -/
theorem analyze_failure_yields_fallback (e : String) :
    analyzeFieldImage (Except.error e) = fallbackAnalysis
    ∧ fallbackAnalysis.defectType = "Unknown"
    ∧ fallbackAnalysis.severity = "Low"
    ∧ fallbackAnalysis.confidence = 0
    ∧ fallbackAnalysis.isQualitySufficient = false
    ∧ fallbackAnalysis.instructions = "Analysis service unavailable. Please retry." :=
  ⟨rfl, rfl, rfl, rfl, rfl, rfl⟩

/-- C3: in one `handleAnalyze` run, exactly one augmentation request is issued
when `defectType ≠ "None"` and `isQualitySufficient`, zero otherwise, and any
augmentation request occurs strictly after the analysis result in the trace. -/
theorem augment_once_after_analysis (base64 : String) (result : AnalysisResult) :
    ((result.defectType ≠ "None" ∧ result.isQualitySufficient = true) →
      (handleAnalyzeTrace base64 result).countP isAugmentRequest = 1)
    ∧ ((result.defectType = "None" ∨ result.isQualitySufficient = false) →
      (handleAnalyzeTrace base64 result).countP isAugmentRequest = 0)
    ∧ (∀ (i : Nat) (ev : CaptureEvent), (handleAnalyzeTrace base64 result)[i]? = some ev →
        isAugmentRequest ev = true →
        ∃ j : Nat, j < i ∧
          (handleAnalyzeTrace base64 result)[j]? = some (CaptureEvent.analyzed result)) := by
  by_cases hc : result.defectType ≠ "None" ∧ result.isQualitySufficient = true
  · have ht : handleAnalyzeTrace base64 result =
        [CaptureEvent.analyzed result,
         CaptureEvent.augmentRequested base64 ("defect: " ++ result.defectType)] := by
      simp [handleAnalyzeTrace, hc]
    refine ⟨fun _ => ?_, fun hcon => ?_, ?_⟩
    · rw [ht]; simp [List.countP_cons, isAugmentRequest]
    · exfalso
      rcases hcon with hnone | hq
      · exact hc.1 hnone
      · rw [hc.2] at hq; exact absurd hq (by decide)
    · intro i ev hget haug
      rw [ht] at hget ⊢
      match i, hget with
      | 0, hget =>
          exfalso
          simp only [List.getElem?_cons_zero, Option.some.injEq] at hget
          rw [← hget] at haug
          simp [isAugmentRequest] at haug
      | 1, _ => exact ⟨0, Nat.zero_lt_one, rfl⟩
      | n + 2, hget => simp at hget
  · have ht : handleAnalyzeTrace base64 result = [CaptureEvent.analyzed result] := by
      simp [handleAnalyzeTrace, hc]
    refine ⟨fun hcon => absurd hcon hc, fun _ => ?_, ?_⟩
    · rw [ht]; simp [List.countP_cons, isAugmentRequest]
    · intro i ev hget haug
      rw [ht] at hget
      match i, hget with
      | 0, hget =>
          exfalso
          simp only [List.getElem?_cons_zero, Option.some.injEq] at hget
          rw [← hget] at haug
          simp [isAugmentRequest] at haug
      | n + 1, hget => simp at hget

/-- Witness for C3: a quality-sufficient crack analysis issues exactly one
augmentation request, and a quality-insufficient one issues zero. -/
theorem augment_once_after_analysis_witness :
    (handleAnalyzeTrace "b64" sampleCrackAnalysis).countP isAugmentRequest = 1
    ∧ (handleAnalyzeTrace "b64" sampleBlurAnalysis).countP isAugmentRequest = 0 :=
  ⟨(augment_once_after_analysis "b64" sampleCrackAnalysis).1 ⟨by decide, rfl⟩,
   (augment_once_after_analysis "b64" sampleBlurAnalysis).2.1 (Or.inr rfl)⟩

/-- Every suspension recorded by `pollLoop` is 5000 ms, provided the
accumulator only holds 5000 ms suspensions. -/
theorem pollLoop_sleep_5000 (polls : List (Except String JobHandle)) :
    ∀ (h : JobHandle) (tr : List JobEvent) (out : Except String (Option String))
      (tr2 : List JobEvent),
      (∀ m, JobEvent.sleep m ∈ tr → m = 5000) →
      pollLoop h polls tr = some (out, tr2) →
      ∀ m, JobEvent.sleep m ∈ tr2 → m = 5000 := by
  induction polls with
  | nil =>
    intro h tr out tr2 htr hrun m hm
    by_cases hd : h.done
    · rw [pollLoop.eq_def, if_pos hd] at hrun
      obtain ⟨-, rfl⟩ : Except.ok h.resultUri = out ∧ tr = tr2 := by
        simpa using hrun
      exact htr m hm
    · rw [pollLoop.eq_def, if_neg hd] at hrun
      exact absurd hrun (by simp)
  | cons p rest ih =>
    intro h tr out tr2 htr hrun m hm
    by_cases hd : h.done
    · rw [pollLoop.eq_def, if_pos hd] at hrun
      obtain ⟨-, rfl⟩ : Except.ok h.resultUri = out ∧ tr = tr2 := by
        simpa using hrun
      exact htr m hm
    · rw [pollLoop.eq_def, if_neg hd] at hrun
      have hext : ∀ m, JobEvent.sleep m ∈ tr ++ [JobEvent.sleep 5000, JobEvent.poll] →
          m = 5000 := by
        intro m hm
        rcases List.mem_append.1 hm with hm | hm
        · exact htr m hm
        · simp only [List.mem_cons, List.mem_singleton] at hm
          rcases hm with hm | hm
          · exact JobEvent.sleep.inj hm
          · exact absurd hm (by simp)
      cases p with
      | error e =>
        obtain ⟨-, rfl⟩ : Except.error e = out ∧
            tr ++ [JobEvent.sleep 5000, JobEvent.poll] = tr2 := by
          simpa using hrun
        exact hext m hm
      | ok h2 =>
        exact ih h2 (tr ++ [JobEvent.sleep 5000, JobEvent.poll]) out tr2 hext hrun m hm

/-- A poll error reached after any run of not-yet-done successful polls
escapes the loop and is returned as the overall error. -/
theorem pollLoop_error_propagates (e : String) (polls : List (Except String JobHandle)) :
    ∀ (okhs : List JobHandle) (h : JobHandle) (tr : List JobEvent),
      h.done = false → (∀ x ∈ okhs, x.done = false) →
      ∃ tr2, pollLoop h (okhs.map Except.ok ++ (Except.error e :: polls)) tr =
        some (Except.error e, tr2) := by
  intro okhs
  induction okhs with
  | nil =>
    intro h tr hd _
    refine ⟨tr ++ [JobEvent.sleep 5000, JobEvent.poll], ?_⟩
    rw [pollLoop.eq_def, if_neg (by simp [hd])]
    simp
  | cons x rest ih =>
    intro h tr hd hoks
    obtain ⟨tr2, hrec⟩ := ih x (tr ++ [JobEvent.sleep 5000, JobEvent.poll])
      (hoks x (by simp)) (fun y hy => hoks y (by simp [hy]))
    refine ⟨tr2, ?_⟩
    rw [pollLoop.eq_def, if_neg (by simp [hd])]
    simpa using hrec

/-- C4: the video-job poller submits once, then suspends 5000 ms before each
re-poll; it terminates on the first `done` handle and returns its decorated
result reference (or `null` when absent); given a poll sequence
false/false/true-with-result it performs 1 submit and 3 polls; and any error
from submit or from a poll is re-raised to the caller. -/
theorem video_poller_spec (apiKey r e : String)
    (polls : List (Except String JobHandle)) :
    (generateInspectionVideo apiKey
        (Except.ok { done := false, resultUri := none })
        [Except.ok { done := false, resultUri := none },
         Except.ok { done := false, resultUri := none },
         Except.ok { done := true, resultUri := some r }] =
      some (Except.ok (some (r ++ "&key=" ++ apiKey)),
        [JobEvent.submit, JobEvent.sleep 5000, JobEvent.poll, JobEvent.sleep 5000,
         JobEvent.poll, JobEvent.sleep 5000, JobEvent.poll]))
    ∧ ([JobEvent.submit, JobEvent.sleep 5000, JobEvent.poll, JobEvent.sleep 5000,
         JobEvent.poll, JobEvent.sleep 5000, JobEvent.poll].countP
          (fun ev => ev == JobEvent.submit) = 1
        ∧ [JobEvent.submit, JobEvent.sleep 5000, JobEvent.poll, JobEvent.sleep 5000,
            JobEvent.poll, JobEvent.sleep 5000, JobEvent.poll].countP
          (fun ev => ev == JobEvent.poll) = 3)
    ∧ (generateInspectionVideo apiKey
        (Except.ok { done := true, resultUri := none }) polls =
      some (Except.ok none, [JobEvent.submit]))
    ∧ (generateInspectionVideo apiKey (Except.error e) polls =
      some (Except.error e, [JobEvent.submit]))
    ∧ (∀ okhs : List JobHandle, (∀ x ∈ okhs, x.done = false) →
        ∃ tr, generateInspectionVideo apiKey
            (Except.ok { done := false, resultUri := none })
            (okhs.map Except.ok ++ (Except.error e :: polls)) =
          some (Except.error e, tr))
    ∧ (∀ s out tr, generateInspectionVideo apiKey s polls = some (out, tr) →
        ∀ m, JobEvent.sleep m ∈ tr → m = 5000) := by
  refine ⟨?_, by decide, ?_, rfl, ?_, ?_⟩
  · simp [generateInspectionVideo, pollLoop.eq_def]
  · simp [generateInspectionVideo, pollLoop.eq_def]
  · intro okhs hoks
    obtain ⟨tr2, hrec⟩ := pollLoop_error_propagates e polls okhs
      { done := false, resultUri := none } [JobEvent.submit] rfl hoks
    exact ⟨tr2, by simp [generateInspectionVideo, hrec]⟩
  · intro s out tr hrun m hm
    cases s with
    | error e2 =>
      simp only [generateInspectionVideo, Option.some.injEq, Prod.mk.injEq] at hrun
      rw [← hrun.2] at hm
      simp at hm
    | ok h =>
      simp only [generateInspectionVideo] at hrun
      cases hpoll : pollLoop h polls [JobEvent.submit] with
      | none => rw [hpoll] at hrun; exact absurd hrun (by simp)
      | some res =>
        have hsub : ∀ m, JobEvent.sleep m ∈ [JobEvent.submit] → m = 5000 := by
          intro m hm2; simp at hm2
        obtain ⟨res1, res2⟩ := res
        have h5000 := pollLoop_sleep_5000 polls h [JobEvent.submit] res1 res2 hsub hpoll
        rw [hpoll] at hrun
        cases res1 with
        | ok uri =>
          simp only [Option.some.injEq, Prod.mk.injEq] at hrun
          rw [← hrun.2] at hm
          exact h5000 m hm
        | error e2 =>
          simp only [Option.some.injEq, Prod.mk.injEq] at hrun
          rw [← hrun.2] at hm
          exact h5000 m hm

/-- Witness for C4: the scripted false/false/true run at concrete strings. -/
theorem video_poller_spec_witness :
    generateInspectionVideo "KEY"
        (Except.ok { done := false, resultUri := none })
        [Except.ok { done := false, resultUri := none },
         Except.ok { done := false, resultUri := none },
         Except.ok { done := true, resultUri := some "videos/42" }] =
      some (Except.ok (some ("videos/42" ++ "&key=" ++ "KEY")),
        [JobEvent.submit, JobEvent.sleep 5000, JobEvent.poll, JobEvent.sleep 5000,
         JobEvent.poll, JobEvent.sleep 5000, JobEvent.poll]) :=
  (video_poller_spec "KEY" "videos/42" "boom" []).1

/-- Under the commit invariant (C2), counting approved items and counting
quality-sufficient items agree. -/
theorem approvedCount_eq_qualityPassCount : ∀ (items : List CapturedItem),
    (∀ i ∈ items, (i.status = ItemStatus.approved ↔ qualityOk i = true)) →
    approvedCount items = qualityPassCount items := by
  intro items
  induction items with
  | nil => intro _; rfl
  | cons x xs ih =>
    intro hinv
    have hx := hinv x (List.mem_cons_self x xs)
    have hpoint : (x.status == ItemStatus.approved) = qualityOk x := by
      cases hq : qualityOk x
      · rw [hq] at hx
        cases hs : x.status
        · rfl
        · exact absurd (hx.1 hs) (by decide)
      · rw [hx.2 hq]
        rfl
    have hxs := ih (fun i hi => hinv i (List.mem_cons_of_mem x hi))
    unfold approvedCount qualityPassCount at hxs ⊢
    simp only [List.filter_cons, hpoint]
    cases hq : qualityOk x
    · simpa [hq] using hxs
    · simpa [hq] using hxs

/-- C5: the dataset aggregate yields total = number of items, the
per-defect-type histogram, pending count = number of items with status
`pending` (0 when empty), and the quality-pass percentage = approved/total
rounded to nearest (0 when empty; 67 for 3 items of which 2 pass) — the
approved/total reading holds on every store obeying the commit invariant. -/
theorem dataset_aggregate_spec (items : List CapturedItem)
    (hinv : ∀ i ∈ items, (i.status = ItemStatus.approved ↔ qualityOk i = true)) :
    totalCount items = items.length
    ∧ qualityPercentage [] = 0
    ∧ pendingCount ([] : List CapturedItem) = 0
    ∧ pendingCount items = items.countP (fun i => i.status == ItemStatus.pending)
    ∧ (∀ t, defectCounts items t = items.countP (fun i => defectKey i == t))
    ∧ qualityPercentage items =
        (if items.length > 0 then roundPct (approvedCount items) items.length else 0)
    ∧ (items.length = 3 → approvedCount items = 2 → qualityPercentage items = 67) := by
  have hqa := approvedCount_eq_qualityPassCount items hinv
  refine ⟨rfl, rfl, rfl, ?_, ?_, ?_, ?_⟩
  · simp [pendingCount, List.countP_eq_length_filter]
  · intro t
    simp [defectCounts, List.countP_eq_length_filter]
  · unfold qualityPercentage
    rw [hqa]
  · intro h3 h2
    have hq2 : qualityPassCount items = 2 := by rw [← hqa, h2]
    unfold qualityPercentage
    rw [h3, hq2]
    norm_num [roundPct]

/-- Witness for C5: the concrete 3-item store with 2 passing items gives 67. -/
theorem dataset_aggregate_spec_witness :
    (∀ i ∈ sampleItems3, (i.status = ItemStatus.approved ↔ qualityOk i = true))
    ∧ qualityPercentage sampleItems3 = 67 :=
  ⟨by decide, (dataset_aggregate_spec sampleItems3 (by decide)).2.2.2.2.2.2 rfl rfl⟩

/-- C6 counterexample: start a scan (one request now in flight), then stop —
the timer is cancelled and no hint has been published; when the in-flight
scan then completes, `setGuidanceMessages` still runs and the publish count
rises to 1: a hint publication occurs after `stop()` returned, so stop does
not suppress late results. -/
theorem guidance_stop_suppression_counterexample :
    (scannerRun scannerInit [ScannerAction.start, ScannerAction.stop]).timerActive = false
    ∧ (scannerRun scannerInit [ScannerAction.start, ScannerAction.stop]).publishCount = 0
    ∧ (scannerRun scannerInit
        [ScannerAction.start, ScannerAction.stop, ScannerAction.complete]).publishCount = 1 :=
  ⟨rfl, rfl, rfl⟩

/-- After stop (timer inactive), an action other than a restart never starts
a new scan and leaves the timer inactive. -/
theorem scannerStep_no_new_scan (s : ScannerState) (a : ScannerAction)
    (hstop : s.timerActive = false) (ha : a ≠ ScannerAction.start) :
    (scannerStep s a).startedCount = s.startedCount
    ∧ (scannerStep s a).timerActive = false := by
  cases a with
  | start => exact absurd rfl ha
  | tick => simp [scannerStep, hstop]
  | complete => by_cases hf : s.inFlight > 0 <;> simp [scannerStep, hf, hstop]
  | stop => simp [scannerStep]

/-- After stop, no sequence of ticks, completions and further stops ever
starts a new scan. -/
theorem scannerRun_no_start : ∀ (acts : List ScannerAction) (s : ScannerState),
    s.timerActive = false → (∀ a ∈ acts, a ≠ ScannerAction.start) →
    (scannerRun s acts).startedCount = s.startedCount
    ∧ (scannerRun s acts).timerActive = false := by
  intro acts
  induction acts with
  | nil => intro s hstop _; exact ⟨rfl, hstop⟩
  | cons a rest ih =>
    intro s hstop hns
    have ha : a ≠ ScannerAction.start := hns a (List.mem_cons_self a rest)
    have hstep := scannerStep_no_new_scan s a hstop ha
    have hrec := ih (scannerStep s a) hstep.2 (fun x hx => hns x (List.mem_cons_of_mem a hx))
    exact ⟨hrec.1.trans hstep.1, hrec.2⟩

/-- C6 amended: the scanner issues its first scan immediately and subsequent
scans at 3000 ms spacing; stop cancels the timer, so no new scan is ever
issued afterwards — but a scan already in flight at stop time still publishes
its hint when it completes (late publications are not suppressed). -/
theorem guidance_scanner_amended (t0 k : Nat) (s : ScannerState)
    (hstop : s.timerActive = false) (acts : List ScannerAction)
    (hnostart : ∀ a ∈ acts, a ≠ ScannerAction.start) :
    scanIssueTime t0 0 = t0
    ∧ scanIssueTime t0 (k + 1) = scanIssueTime t0 k + 3000
    ∧ (scannerRun s acts).startedCount = s.startedCount
    ∧ (scannerRun s acts).timerActive = false
    ∧ (s.inFlight > 0 →
        (scannerStep s ScannerAction.complete).publishCount = s.publishCount + 1) := by
  have hrun := scannerRun_no_start acts s hstop hnostart
  refine ⟨rfl, ?_, hrun.1, hrun.2, ?_⟩
  · cases k with
    | zero => simp [scanIssueTime]
    | succ j =>
        simp only [scanIssueTime]
        ring
  · intro hf
    simp [scannerStep, hf]

/-- Witness for C6 amended: the stopped state with one in-flight scan. -/
theorem guidance_scanner_amended_witness :
    scanIssueTime 0 0 = 0
    ∧ scanIssueTime 0 (0 + 1) = scanIssueTime 0 0 + 3000
    ∧ (scannerRun (scannerRun scannerInit [ScannerAction.start, ScannerAction.stop])
        [ScannerAction.complete]).startedCount =
        (scannerRun scannerInit [ScannerAction.start, ScannerAction.stop]).startedCount
    ∧ (scannerRun (scannerRun scannerInit [ScannerAction.start, ScannerAction.stop])
        [ScannerAction.complete]).timerActive = false
    ∧ ((scannerRun scannerInit [ScannerAction.start, ScannerAction.stop]).inFlight > 0 →
        (scannerStep (scannerRun scannerInit [ScannerAction.start, ScannerAction.stop])
            ScannerAction.complete).publishCount =
          (scannerRun scannerInit [ScannerAction.start, ScannerAction.stop]).publishCount + 1) :=
  guidance_scanner_amended 0 0
    (scannerRun scannerInit [ScannerAction.start, ScannerAction.stop]) rfl
    [ScannerAction.complete] (by decide)

/-- C7 counterexample: with the first reply still pending
(`isTyping = true`), a second non-empty send is not rejected or deferred — it
fires (`isSome`), and completing the two replies in arrival order yields the
log user, user, ai, ai: the first user message is not immediately followed by
its reply. -/
theorem chat_concurrent_send_counterexample :
    chatDemoStart1.1.isTyping = true
    ∧ chatDemoStart2.2.isSome = true
    ∧ chatDemoFinal.messages.map (fun m => m.sender) = ["user", "user", "ai", "ai"] :=
  ⟨rfl, rfl, rfl⟩

/-- C7 amended: `handleSend` rejects a send only when the trimmed input is
empty; it has no guard on a pending reply, so a second non-empty send fires
even while `isTyping` — two requests can be outstanding. When sends are
executed sequentially (each completed before the next starts), every user
message is immediately followed by its AI reply. -/
theorem chat_send_amended (newId : String) (now : Nat) (role : String) (st : ChatState)
    (input : String) :
    (jsTrim input = "" → handleSendStart newId now role st input = (st, none))
    ∧ (jsTrim input ≠ "" → (handleSendStart newId now role st input).2.isSome = true)
    ∧ (jsTrim input ≠ "" → ∀ (aid : String) (t2 : Nat) (reply : String),
        (handleSendComplete aid t2 (handleSendStart newId now role st input).1 reply).messages =
          st.messages ++
            [{ id := newId, sender := "user", role := role, text := input, timestamp := now },
             { id := aid, sender := "ai", role := "System", text := reply, timestamp := t2 }]) := by
  refine ⟨fun h => ?_, fun h => ?_, fun h aid t2 reply => ?_⟩
  · simp [handleSendStart, h]
  · simp [handleSendStart, h]
  · simp [handleSendStart, handleSendComplete, h]

/-- Witness for C7 amended: a non-empty send fires even while a reply is
pending. -/
theorem chat_send_amended_witness :
    jsTrim "hello" ≠ ""
    ∧ (handleSendStart "u1" 0 "Field Engineer"
        { messages := [], isTyping := true } "hello").2.isSome = true :=
  ⟨by decide, (chat_send_amended "u1" 0 "Field Engineer"
    { messages := [], isTyping := true } "hello").2.1 (by decide)⟩

end VisionDataComm
